import Mathlib

/-!
Verification of the batch accumulator / retry coordinator of the
amazon-kinesis-firehose-for-fluent-bit output plugin
(`firehose/firehose.go`), as a shallow embedding in Lean 4.

Modelling conventions:
* byte sequences are `List Nat` (one `Nat` per byte);
* the external collaborators (JSON / log-key encoding, the strftime
  formatter, and the PutRecordBatch network client) are inputs to the
  embedded operations: each call of `AddRecord` / `Flush` receives the
  outcome the collaborator would have produced on that call;
* wall-clock instants are abstract `Nat` values (only used by the
  failure-watchdog timer, whose firing threshold is not needed here);
* the mutable `*OutputPlugin` receiver is explicit state passing.
-/

set_option maxRecDepth 8000

namespace Firehose

/-- Firehose API limit: maximum number of records in one PutRecordBatch
(firehose.go line 39). -/
def maximumRecordsPerPut : Nat := 500

/-- Firehose API limit: maximum total bytes in one PutRecordBatch, 4 MiB
(firehose.go line 40). -/
def maximumPutRecordBatchSize : Nat := 4194304

/-- Maximum size of one record, 1000 KiB (firehose.go line 41). -/
def maximumRecordSize : Nat := 1024000

/-- The bytes of the string written at firehose.go line 42, the ASCII codes
of the marker appended to truncated records. -/
def truncatedSuffix : List Nat := [91, 84, 114, 117, 110, 99, 97, 116, 101, 100, 46, 46, 46, 93]

/-- The AWS SDK error code string compared against at firehose.go
lines 315 and 344. -/
def ErrCodeServiceUnavailableException : String := "ServiceUnavailableException"

/-- One record of a PutRecordBatch request (`firehose.Record`): its `Data`
byte payload. -/
structure Record where
  Data : List Nat
deriving DecidableEq

/-- Modelled from the spec: `plugins.Timeout`, the failure watchdog (its
source is not under src/). State is the optional failing-since instant
(spec section 4.3: absent when the last attempt succeeded or no attempt has
been made). -/
structure Timeout where
  failingSince : Option Nat
deriving DecidableEq

/-- Modelled from the spec: `Timeout.Start` sets failing-since to now only
if not already set (idempotent). -/
def Timeout.start (t : Timeout) (now : Nat) : Timeout :=
  match t.failingSince with
  | none => ⟨some now⟩
  | some s => ⟨some s⟩

/-- Modelled from the spec: `Timeout.Reset` clears failing-since
unconditionally. -/
def Timeout.reset (_ : Timeout) : Timeout := ⟨none⟩

/-- Modelled from the spec: `Timeout.Check` may invoke the fatal callback
(process exit) past the threshold; it does not change the failing-since
state, so on the modelled state it is the identity. -/
def Timeout.check (t : Timeout) : Timeout := t

/-- The fluent-bit return codes used by the plugin
(`fluentbit.FLB_OK` / `FLB_RETRY` / `FLB_ERROR`). -/
inductive RetCode where
  | FLB_OK
  | FLB_RETRY
  | FLB_ERROR
deriving DecidableEq

/-- One entry of `PutRecordBatchOutput.RequestResponses`: the per-record
outcome, with optional error message and error code (nil pointers are
`none`). -/
structure PutRecordBatchEntry where
  ErrorMessage : Option String
  ErrorCode : Option String
deriving DecidableEq

/-- The response of a transport-successful PutRecordBatch call:
`FailedPutCount` (nil pointer reads as 0 via `aws.Int64Value`, so a plain
`Nat`) and the ordered per-record outcomes. -/
structure PutRecordBatchOutput where
  FailedPutCount : Nat
  RequestResponses : List PutRecordBatchEntry
deriving DecidableEq

/-- The outcome of one `client.PutRecordBatch` call: either a transport
error (with the `awserr` code when the error is an AWS error) or a
response. -/
inductive ClientResult where
  | transportError (code : Option String)
  | output (resp : PutRecordBatchOutput)
deriving DecidableEq

/-- Model of `aws.StringValue`: dereference an optional string, nil reads
as the empty string. -/
def stringValue (s : Option String) : String := s.getD ""

/-- The state of `firehose.OutputPlugin` relevant to the accumulator:
`timeKey` (the configured time-key name, empty when unset),
`simpleAggregation`, the pending `records`, the tracked `dataLength`, and
the failure-watchdog `timer`. The remaining fields (region, delivery
stream name, encoder configuration, client handle) never influence the
control flow of the modelled operations and are omitted. -/
structure OutputPlugin where
  timeKey : String
  simpleAggregation : Bool
  records : List Record
  dataLength : Nat
  timer : Timeout
deriving DecidableEq

/-- The accumulator state produced by `NewOutputPlugin`: empty record
slice, zero data length, fresh timer. -/
def initialPlugin (timeKey : String) (simpleAggregation : Bool) : OutputPlugin :=
  ⟨timeKey, simpleAggregation, [], 0, ⟨none⟩⟩

/-- Aggregate byte size of a list of records: the sum of the lengths of
their `Data` payloads. -/
def batchSize (b : List Record) : Nat := (b.map fun r => r.Data.length).sum

/-- The in-repository tail of `processRecord` (firehose.go lines 290-296).
The JSON / log-key encoding that produces the input bytes — including the
newline appended at line 288 — is an external collaborator; this function
applies the oversize-truncation rule to its output. -/
def processRecord (data : List Nat) : List Nat :=
  if data.length > maximumRecordSize then
    data.take (maximumRecordSize - truncatedSuffix.length) ++ truncatedSuffix
  else data

/-- The reconstruction loop of `processAPIResponse` (firehose.go lines
339-348): walk the response entries in order with their index `i`,
appending `records[i]` to the accumulator for every entry carrying an
`ErrorMessage`; abort with `none` (early `return FLB_RETRY`) as soon as an
entry's `ErrorCode` equals the service-unavailable code. Go's
out-of-bounds panic on `records[i]` cannot occur under the delivery-client
contract (response length equals request length), which the theorems
assume; out of range the model reads an empty record. -/
def collectFailed (records : List Record) :
    List PutRecordBatchEntry → Nat → List Record → Option (List Record)
  | [], _, acc => some acc
  | e :: rest, i, acc =>
    let acc' := if e.ErrorMessage.isSome then acc ++ [records.getD i ⟨[]⟩] else acc
    if stringValue e.ErrorCode = ErrCodeServiceUnavailableException then none
    else collectFailed records rest (i + 1) acc'

/-- `processAPIResponse` (firehose.go lines 328-365). Returns the updated
plugin state, the fluent-bit return code, and the Go error value (`none`
for nil). -/
def processAPIResponse (output : OutputPlugin) (now : Nat)
    (response : PutRecordBatchOutput) : OutputPlugin × RetCode × Option String :=
  if response.FailedPutCount > 0 then
    if response.FailedPutCount = output.records.length then
      ({ output with timer := output.timer.start now }, RetCode.FLB_RETRY,
        some "PutRecordBatch request returned with no records successfully recieved")
    else
      match collectFailed output.records response.RequestResponses 0 [] with
      | none => (output, RetCode.FLB_RETRY, none)
      | some failedRecords =>
        ({ output with
            records := failedRecords,
            dataLength := batchSize failedRecords }, RetCode.FLB_OK, none)
  else
    ({ output with timer := output.timer.reset, records := [], dataLength := 0 },
      RetCode.FLB_OK, none)

/-- `sendCurrentBatch` (firehose.go lines 299-324): no-op success on an
empty batch; `timer.Check()`; then the client call, whose outcome this
model receives as the `client` argument. A transport error arms the timer
and returns retry; a response is handed to `processAPIResponse`. -/
def sendCurrentBatch (output : OutputPlugin) (now : Nat) (client : ClientResult) :
    OutputPlugin × RetCode × Option String :=
  if output.records = [] then (output, RetCode.FLB_OK, none)
  else
    let output := { output with timer := output.timer.check }
    match client with
    | ClientResult.transportError _ =>
      ({ output with timer := output.timer.start now }, RetCode.FLB_RETRY,
        some "PutRecordBatch failed")
    | ClientResult.output resp => processAPIResponse output now resp

/-- The implicit-flush trigger of `AddRecord` (firehose.go line 202): the
batch is at the 500-record cap, or adding `newDataSize` bytes would push
the tracked length past the 4 MiB cap. -/
def sendTrigger (output : OutputPlugin) (newDataSize : Nat) : Prop :=
  output.records.length = maximumRecordsPerPut ∨
    output.dataLength + newDataSize > maximumPutRecordBatchSize

instance (output : OutputPlugin) (n : Nat) : Decidable (sendTrigger output n) := by
  unfold sendTrigger; infer_instance

/-- The append step of `AddRecord` (firehose.go lines 212-219): coalesce
onto the last record when simple aggregation is on, the batch is
non-empty, and the merged record stays within the per-record cap;
otherwise append a new record; either way add the new size to
`dataLength`. -/
def appendToBatch (output : OutputPlugin) (data : List Nat) : OutputPlugin :=
  if output.simpleAggregation = true ∧ output.records ≠ [] ∧
      (output.records.getLastD ⟨[]⟩).Data.length + data.length ≤ maximumRecordSize then
    { output with
        records := output.records.dropLast ++
          [⟨(output.records.getLastD ⟨[]⟩).Data ++ data⟩],
        dataLength := output.dataLength + data.length }
  else
    { output with
        records := output.records ++ [⟨data⟩],
        dataLength := output.dataLength + data.length }

/-- `AddRecord` (firehose.go lines 183-221). `fmtOk` is the outcome of the
strftime formatting (consulted only when a time key is configured);
`encoded` is the outcome of the external encoding pipeline feeding
`processRecord` (`none` for an encode error, which drops just this
record); `client` is consumed only if the implicit flush fires. -/
def AddRecord (output : OutputPlugin) (fmtOk : Bool) (encoded : Option (List Nat))
    (now : Nat) (client : ClientResult) : OutputPlugin × RetCode :=
  if output.timeKey ≠ "" ∧ fmtOk = false then (output, RetCode.FLB_ERROR)
  else
    match encoded with
    | none => (output, RetCode.FLB_OK)
    | some raw =>
      let data := processRecord raw
      if sendTrigger output data.length then
        let res := sendCurrentBatch output now client
        if res.2.1 ≠ RetCode.FLB_OK then (res.1, res.2.1)
        else (appendToBatch res.1 data, RetCode.FLB_OK)
      else (appendToBatch output data, RetCode.FLB_OK)

/-- `Flush` (firehose.go lines 225-231): delegates to `sendCurrentBatch`. -/
def Flush (output : OutputPlugin) (now : Nat) (client : ClientResult) :
    OutputPlugin × RetCode :=
  let res := sendCurrentBatch output now client
  (res.1, res.2.1)

/-- One external call into the accumulator, together with the collaborator
outcomes that call would observe. -/
inductive Event where
  | add (fmtOk : Bool) (encoded : Option (List Nat)) (now : Nat) (client : ClientResult)
  | flush (now : Nat) (client : ClientResult)
deriving DecidableEq

/-- The client outcome an event carries. -/
def clientOf : Event → ClientResult
  | Event.add _ _ _ c => c
  | Event.flush _ c => c

/-- State transition of one event. -/
def stepEvent (st : OutputPlugin) : Event → OutputPlugin
  | Event.add f e n c => (AddRecord st f e n c).1
  | Event.flush n c => (Flush st n c).1

/-- Run a sequence of `AddRecord` / `Flush` calls. -/
def runEvents (st : OutputPlugin) : List Event → OutputPlugin
  | [] => st
  | e :: es => runEvents (stepEvent st e) es

/-- The batches actually handed to the delivery client during one event:
`sendCurrentBatch` invokes the client exactly when it runs with a
non-empty batch, and `AddRecord` runs it exactly when the implicit-flush
trigger fires (before the timestamp-format failure return and the
encode-error drop, no send happens). -/
def sendIssues (st : OutputPlugin) : Event → List (List Record)
  | Event.add f e _ _ =>
    if st.timeKey ≠ "" ∧ f = false then []
    else
      match e with
      | none => []
      | some raw =>
        if sendTrigger st (processRecord raw).length ∧ st.records ≠ [] then
          [st.records]
        else []
  | Event.flush _ _ => if st.records ≠ [] then [st.records] else []

/-- All batches handed to the delivery client along a run. -/
def sendsOf (st : OutputPlugin) : List Event → List (List Record)
  | [] => []
  | e :: es => sendIssues st e ++ sendsOf (stepEvent st e) es

/-- The delivery-client contract (spec section 6) for one response to a
batch `b`: the outcome list has the request's length, and `failedCount`
counts the outcomes carrying an error. Transport errors carry no
response. -/
def consistentResponse (b : List Record) : ClientResult → Bool
  | ClientResult.transportError _ => true
  | ClientResult.output r =>
    decide (r.RequestResponses.length = b.length) &&
      decide (r.FailedPutCount =
        (r.RequestResponses.filter fun e => e.ErrorMessage.isSome).length)

/-- Every batch handed to the client along the run receives a
contract-respecting outcome. -/
def contractTrace (st : OutputPlugin) : List Event → Bool
  | [] => true
  | e :: es =>
    ((sendIssues st e).all fun b => consistentResponse b (clientOf e)) &&
      contractTrace (stepEvent st e) es

/-- A response to batch `b` that makes `processAPIResponse` rebuild the
batch as the failed subset: a transport success reporting
`0 < failedCount ≠ len(b)` with no outcome carrying the
service-unavailable code. -/
def rebuildsSubset (b : List Record) : ClientResult → Bool
  | ClientResult.transportError _ => false
  | ClientResult.output r =>
    decide (0 < r.FailedPutCount) && decide (r.FailedPutCount ≠ b.length) &&
      (r.RequestResponses.all fun e =>
        decide (stringValue e.ErrorCode ≠ ErrCodeServiceUnavailableException))

/-- No implicit flush triggered from inside `AddRecord` receives a
subset-rebuilding response along the run (explicit `Flush` calls are
unrestricted). -/
def implicitSafe (st : OutputPlugin) : List Event → Bool
  | [] => true
  | e :: es =>
    (match e with
      | Event.add _ _ _ c => (sendIssues st e).all fun b => !(rebuildsSubset b c)
      | Event.flush _ _ => true) &&
      implicitSafe (stepEvent st e) es

/-- The size-accounting invariant: the tracked `dataLength` equals the sum
of the byte lengths of the held records. -/
def sizeInv (st : OutputPlugin) : Prop := st.dataLength = batchSize st.records

instance (st : OutputPlugin) : Decidable (sizeInv st) := by
  unfold sizeInv; infer_instance

/-! Concrete trace used to examine the size bound at a send: a 1-byte
record, four records of the maximum record size, then a fifth big record
whose arrival triggers the implicit flush, answered with a partial
failure in which only the 1-byte record was accepted, and a final
explicit flush. -/

/-- A 1-byte encoded record. -/
def smallRaw : List Nat := [0]

/-- An encoded record of exactly the 1,024,000-byte per-record cap. -/
def bigRaw : List Nat := List.replicate 1024000 0

/-- An outcome reporting acceptance. -/
def cexOkEntry : PutRecordBatchEntry := ⟨none, none⟩

/-- An outcome reporting rejection (no service-unavailable code). -/
def cexErrEntry : PutRecordBatchEntry := ⟨some "err", none⟩

/-- The partial-failure response to the five-record batch: the 1-byte
record (position 0) was accepted, the four big records were not. -/
def cexResp : PutRecordBatchOutput :=
  ⟨4, [cexOkEntry, cexErrEntry, cexErrEntry, cexErrEntry, cexErrEntry]⟩

/-- The event trace. -/
def cexEvents : List Event :=
  [Event.add true (some smallRaw) 0 (ClientResult.transportError none),
    Event.add true (some bigRaw) 0 (ClientResult.transportError none),
    Event.add true (some bigRaw) 0 (ClientResult.transportError none),
    Event.add true (some bigRaw) 0 (ClientResult.transportError none),
    Event.add true (some bigRaw) 0 (ClientResult.transportError none),
    Event.add true (some bigRaw) 0 (ClientResult.output cexResp),
    Event.flush 0 (ClientResult.transportError none)]

/-- State after the first add. -/
def cexSt1 : OutputPlugin := ⟨"", false, [⟨smallRaw⟩], 1, ⟨none⟩⟩

/-- State after the second add. -/
def cexSt2 : OutputPlugin := ⟨"", false, [⟨smallRaw⟩, ⟨bigRaw⟩], 1024001, ⟨none⟩⟩

/-- State after the third add. -/
def cexSt3 : OutputPlugin :=
  ⟨"", false, [⟨smallRaw⟩, ⟨bigRaw⟩, ⟨bigRaw⟩], 2048001, ⟨none⟩⟩

/-- State after the fourth add. -/
def cexSt4 : OutputPlugin :=
  ⟨"", false, [⟨smallRaw⟩, ⟨bigRaw⟩, ⟨bigRaw⟩, ⟨bigRaw⟩], 3072001, ⟨none⟩⟩

/-- State after the fifth add: 4,096,001 tracked bytes. -/
def cexSt5 : OutputPlugin :=
  ⟨"", false, [⟨smallRaw⟩, ⟨bigRaw⟩, ⟨bigRaw⟩, ⟨bigRaw⟩, ⟨bigRaw⟩], 4096001, ⟨none⟩⟩

/-- State after the sixth add (implicit flush answered with the partial
failure, then the new record appended): 5,120,000 tracked bytes. -/
def cexSt6 : OutputPlugin :=
  ⟨"", false, [⟨bigRaw⟩, ⟨bigRaw⟩, ⟨bigRaw⟩, ⟨bigRaw⟩, ⟨bigRaw⟩], 5120000, ⟨none⟩⟩

/-! Helper lemmas. -/

theorem batchSize_nil : batchSize [] = 0 := rfl

theorem batchSize_append (l₁ l₂ : List Record) :
    batchSize (l₁ ++ l₂) = batchSize l₁ + batchSize l₂ := by
  simp [batchSize]

theorem batchSize_singleton (r : Record) : batchSize [r] = r.Data.length := by
  simp [batchSize]

theorem batchSize_cons (r : Record) (l : List Record) :
    batchSize (r :: l) = r.Data.length + batchSize l := by
  simp [batchSize]

/-- Sum of byte lengths is monotone along sublists. -/
theorem batchSize_le_of_sublist {l₁ l₂ : List Record} (h : l₁.Sublist l₂) :
    batchSize l₁ ≤ batchSize l₂ := by
  induction h with
  | slnil => exact Nat.le_refl _
  | cons a _ ih => rw [batchSize_cons]; omega
  | cons₂ a _ ih => rw [batchSize_cons, batchSize_cons]; omega

/-- The retained-subset reconstruction is a sublist of the second zip
component. -/
theorem zip_filter_map_sublist {α β : Type} (P : α × β → Bool) :
    ∀ (l₁ : List α) (l₂ : List β),
      (((l₁.zip l₂).filter P).map Prod.snd).Sublist l₂ := by
  intro l₁
  induction l₁ with
  | nil => intro l₂; simp
  | cons a l₁ ih =>
    intro l₂
    cases l₂ with
    | nil => simp
    | cons b l₂ =>
      rw [List.zip_cons_cons, List.filter_cons]
      by_cases h : P (a, b)
      · rw [if_pos h, List.map_cons]
        exact List.Sublist.cons₂ b (ih l₂)
      · rw [if_neg h]
        exact List.Sublist.cons b (ih l₂)

/-- A service-unavailable code anywhere in the outcome list aborts the
reconstruction. -/
theorem collectFailed_none (records : List Record) :
    ∀ (entries : List PutRecordBatchEntry) (i : Nat) (acc : List Record),
      (∃ e ∈ entries, stringValue e.ErrorCode = ErrCodeServiceUnavailableException) →
      collectFailed records entries i acc = none := by
  intro entries
  induction entries with
  | nil => intro i acc h; simp at h
  | cons e rest ih =>
    intro i acc h
    by_cases hc : stringValue e.ErrorCode = ErrCodeServiceUnavailableException
    · simp only [collectFailed, hc, if_true]
    · simp only [collectFailed, hc, if_false]
      rcases h with ⟨x, hx, hxe⟩
      rcases List.mem_cons.mp hx with h1 | h2
      · exact absurd (h1 ▸ hxe) hc
      · exact ih (i + 1) _ ⟨x, h2, hxe⟩

/-- With no service-unavailable code, the reconstruction collects exactly
the records paired with an error-carrying outcome, in order. -/
theorem collectFailed_some (records : List Record) :
    ∀ (entries : List PutRecordBatchEntry) (i : Nat) (acc : List Record),
      (∀ e ∈ entries, stringValue e.ErrorCode ≠ ErrCodeServiceUnavailableException) →
      i + entries.length ≤ records.length →
      collectFailed records entries i acc =
        some (acc ++ ((entries.zip (records.drop i)).filter
            fun p => p.1.ErrorMessage.isSome).map Prod.snd) := by
  intro entries
  induction entries with
  | nil => intro i acc _ _; simp [collectFailed]
  | cons e rest ih =>
    intro i acc hno hlen
    have hi : i < records.length := by
      simp only [List.length_cons] at hlen; omega
    have hdrop : records.drop i = records.getD i ⟨[]⟩ :: records.drop (i + 1) := by
      rw [List.getD_eq_getElem _ _ hi]
      exact List.drop_eq_getElem_cons hi
    have hrest : ∀ e ∈ rest, stringValue e.ErrorCode ≠ ErrCodeServiceUnavailableException :=
      fun x hx => hno x (List.mem_cons_of_mem _ hx)
    have hlen' : i + 1 + rest.length ≤ records.length := by
      simp only [List.length_cons] at hlen; omega
    simp only [collectFailed, hno e (List.mem_cons_self e rest), if_false,
      ih (i + 1) _ hrest hlen', hdrop, List.zip_cons_cons, List.filter_cons]
    by_cases hm : e.ErrorMessage.isSome
    · simp [hm]
    · simp [hm]

/-- Length of the reconstructed subset: one record per error-carrying
outcome. -/
theorem collectFailed_length (records : List Record) :
    ∀ (entries : List PutRecordBatchEntry) (i : Nat) (acc fr : List Record),
      collectFailed records entries i acc = some fr →
      fr.length = acc.length + (entries.filter fun e => e.ErrorMessage.isSome).length := by
  intro entries
  induction entries with
  | nil =>
    intro i acc fr h
    simp only [collectFailed, Option.some.injEq] at h
    simp [← h]
  | cons e rest ih =>
    intro i acc fr h
    by_cases hc : stringValue e.ErrorCode = ErrCodeServiceUnavailableException
    · simp only [collectFailed, hc, if_true] at h
      exact absurd h (by simp)
    · simp only [collectFailed, hc, if_false] at h
      by_cases hm : e.ErrorMessage.isSome
      · have h2 := ih (i + 1) _ fr (by simpa [hm] using h)
        simp only [List.length_append, List.length_singleton] at h2
        simp only [List.filter_cons, hm, if_true, List.length_cons]
        omega
      · have h2 := ih (i + 1) _ fr (by simpa [hm] using h)
        simp only [List.filter_cons, hm, Bool.false_eq_true, if_false]
        exact h2

/-! Claim theorems about `processAPIResponse`. -/

/-- C2: for every response with `0 < failedCount < number of sent records`
and no outcome carrying the service-unavailable error code,
`processAPIResponse` replaces the pending batch with exactly the records
whose outcome carried an error, in their original relative order, sets the
tracked aggregate size to the sum of the retained records' byte lengths,
and returns success-status. The first hypothesis is the delivery-client
contract: the outcome list has the request's length. -/
theorem partial_failure_rebuilds_failed_subset (st : OutputPlugin) (now : Nat)
    (resp : PutRecordBatchOutput)
    (hlen : resp.RequestResponses.length = st.records.length)
    (hpos : 0 < resp.FailedPutCount)
    (hlt : resp.FailedPutCount < st.records.length)
    (hnosu : ∀ e ∈ resp.RequestResponses,
      stringValue e.ErrorCode ≠ ErrCodeServiceUnavailableException) :
    processAPIResponse st now resp =
      ({ st with
          records := ((resp.RequestResponses.zip st.records).filter
              fun p => p.1.ErrorMessage.isSome).map Prod.snd,
          dataLength := batchSize (((resp.RequestResponses.zip st.records).filter
              fun p => p.1.ErrorMessage.isSome).map Prod.snd) },
        RetCode.FLB_OK, none) := by
  have hne : resp.FailedPutCount ≠ st.records.length := Nat.ne_of_lt hlt
  have hcf := collectFailed_some st.records resp.RequestResponses 0 []
    hnosu (by omega)
  simp only [List.drop_zero, List.nil_append] at hcf
  simp [processAPIResponse, hpos, hne, hcf]

/-- C2 witness: the spec example — 2 of 5 records failed (indices 1 and
3, no overload code); the post-processing batch is exactly those two
records in order and the aggregate size is their combined length. -/
theorem partial_failure_rebuilds_failed_subset_witness :
    ((⟨2, [⟨none, none⟩, ⟨some "e", none⟩, ⟨none, none⟩, ⟨some "e", none⟩,
        ⟨none, none⟩]⟩ : PutRecordBatchOutput).RequestResponses.length =
      (⟨"", false, [⟨[1]⟩, ⟨[2, 2]⟩, ⟨[3]⟩, ⟨[4, 4, 4]⟩, ⟨[5]⟩], 8,
        ⟨none⟩⟩ : OutputPlugin).records.length) ∧
    (0 < (2 : Nat)) ∧ ((2 : Nat) < 5) ∧
    processAPIResponse ⟨"", false, [⟨[1]⟩, ⟨[2, 2]⟩, ⟨[3]⟩, ⟨[4, 4, 4]⟩, ⟨[5]⟩], 8, ⟨none⟩⟩ 7
        ⟨2, [⟨none, none⟩, ⟨some "e", none⟩, ⟨none, none⟩, ⟨some "e", none⟩, ⟨none, none⟩]⟩ =
      (⟨"", false, [⟨[2, 2]⟩, ⟨[4, 4, 4]⟩], 5, ⟨none⟩⟩, RetCode.FLB_OK, none) := by
  refine ⟨by decide, by decide, by decide, ?_⟩
  have h := partial_failure_rebuilds_failed_subset
    ⟨"", false, [⟨[1]⟩, ⟨[2, 2]⟩, ⟨[3]⟩, ⟨[4, 4, 4]⟩, ⟨[5]⟩], 8, ⟨none⟩⟩ 7
    ⟨2, [⟨none, none⟩, ⟨some "e", none⟩, ⟨none, none⟩, ⟨some "e", none⟩, ⟨none, none⟩]⟩
    (by decide) (by decide) (by decide) (by decide)
  rw [h]; decide

/-- C3: for every partial-failure response (`0 < failedCount < sent`) in
which some outcome's error code is the service-unavailable code,
`processAPIResponse` returns retry-status and leaves the plugin state —
the full record sequence and the tracked aggregate size — entirely
unchanged. -/
theorem service_unavailable_leaves_batch_untouched (st : OutputPlugin) (now : Nat)
    (resp : PutRecordBatchOutput)
    (hpos : 0 < resp.FailedPutCount)
    (hlt : resp.FailedPutCount < st.records.length)
    (hsu : ∃ e ∈ resp.RequestResponses,
      stringValue e.ErrorCode = ErrCodeServiceUnavailableException) :
    processAPIResponse st now resp = (st, RetCode.FLB_RETRY, none) := by
  have hne : resp.FailedPutCount ≠ st.records.length := Nat.ne_of_lt hlt
  have hnone := collectFailed_none st.records resp.RequestResponses 0 [] hsu
  simp [processAPIResponse, hpos, hne, hnone]

/-- C3 witness: 2 of 5 failed, the second outcome carries the
service-unavailable code; the state (records, aggregate size and timer)
is returned untouched with retry-status. -/
theorem service_unavailable_leaves_batch_untouched_witness :
    (0 < (2 : Nat)) ∧ ((2 : Nat) < 5) ∧
    (∃ e ∈ [(⟨none, none⟩ : PutRecordBatchEntry),
        ⟨some "e", some "ServiceUnavailableException"⟩, ⟨some "e", none⟩,
        ⟨none, none⟩, ⟨none, none⟩],
      stringValue e.ErrorCode = ErrCodeServiceUnavailableException) ∧
    processAPIResponse ⟨"", false, [⟨[1]⟩, ⟨[2, 2]⟩, ⟨[3]⟩, ⟨[4, 4, 4]⟩, ⟨[5]⟩], 8, ⟨none⟩⟩ 7
        ⟨2, [⟨none, none⟩, ⟨some "e", some "ServiceUnavailableException"⟩,
          ⟨some "e", none⟩, ⟨none, none⟩, ⟨none, none⟩]⟩ =
      (⟨"", false, [⟨[1]⟩, ⟨[2, 2]⟩, ⟨[3]⟩, ⟨[4, 4, 4]⟩, ⟨[5]⟩], 8, ⟨none⟩⟩,
        RetCode.FLB_RETRY, none) :=
  ⟨by decide, by decide, by decide,
    service_unavailable_leaves_batch_untouched _ _ _ (by decide) (by decide) (by decide)⟩

/-- C4: for every response in which `failedCount` equals the number of
records sent (non-empty batch), `processAPIResponse` arms the failure
watchdog start-if-not-started, returns retry-status with the
no-records-accepted error, and leaves the pending batch and aggregate
size unchanged. -/
theorem total_failure_arms_watchdog (st : OutputPlugin) (now : Nat)
    (resp : PutRecordBatchOutput)
    (heq : resp.FailedPutCount = st.records.length)
    (hne : st.records ≠ []) :
    (processAPIResponse st now resp).1.records = st.records ∧
    (processAPIResponse st now resp).1.dataLength = st.dataLength ∧
    (processAPIResponse st now resp).2.1 = RetCode.FLB_RETRY ∧
    (processAPIResponse st now resp).2.2 =
      some "PutRecordBatch request returned with no records successfully recieved" ∧
    (processAPIResponse st now resp).1.timer = st.timer.start now ∧
    (st.timer.failingSince = none →
      (processAPIResponse st now resp).1.timer.failingSince = some now) ∧
    (∀ t, st.timer.failingSince = some t →
      (processAPIResponse st now resp).1.timer.failingSince = some t) := by
  have hpos : 0 < resp.FailedPutCount := by
    rw [heq]; exact List.length_pos.mpr hne
  have hbranch : processAPIResponse st now resp =
      ({ st with timer := st.timer.start now }, RetCode.FLB_RETRY,
        some "PutRecordBatch request returned with no records successfully recieved") := by
    simp [processAPIResponse, hpos, heq, hne]
  refine ⟨by rw [hbranch], by rw [hbranch], by rw [hbranch], by rw [hbranch],
    by rw [hbranch], ?_, ?_⟩
  · intro h0; rw [hbranch]; simp [Timeout.start, h0]
  · intro t ht; rw [hbranch]; simp [Timeout.start, ht]

/-- C4 witness: the spec example shape — all 2 of 2 sent records failed;
the watchdog's failing-since becomes set and the batch is byte-for-byte
unchanged. -/
theorem total_failure_arms_watchdog_witness :
    ((⟨2, [⟨some "e", none⟩, ⟨some "e", none⟩]⟩ : PutRecordBatchOutput).FailedPutCount =
      (⟨"", false, [⟨[1]⟩, ⟨[2]⟩], 2, ⟨none⟩⟩ : OutputPlugin).records.length) ∧
    ((⟨"", false, [⟨[1]⟩, ⟨[2]⟩], 2, ⟨none⟩⟩ : OutputPlugin).records ≠ []) ∧
    ((processAPIResponse ⟨"", false, [⟨[1]⟩, ⟨[2]⟩], 2, ⟨none⟩⟩ 9
        ⟨2, [⟨some "e", none⟩, ⟨some "e", none⟩]⟩).1.records = [⟨[1]⟩, ⟨[2]⟩] ∧
      (processAPIResponse ⟨"", false, [⟨[1]⟩, ⟨[2]⟩], 2, ⟨none⟩⟩ 9
        ⟨2, [⟨some "e", none⟩, ⟨some "e", none⟩]⟩).1.dataLength = 2 ∧
      (processAPIResponse ⟨"", false, [⟨[1]⟩, ⟨[2]⟩], 2, ⟨none⟩⟩ 9
        ⟨2, [⟨some "e", none⟩, ⟨some "e", none⟩]⟩).2.1 = RetCode.FLB_RETRY ∧
      (processAPIResponse ⟨"", false, [⟨[1]⟩, ⟨[2]⟩], 2, ⟨none⟩⟩ 9
        ⟨2, [⟨some "e", none⟩, ⟨some "e", none⟩]⟩).1.timer.failingSince = some 9) := by
  have h := total_failure_arms_watchdog ⟨"", false, [⟨[1]⟩, ⟨[2]⟩], 2, ⟨none⟩⟩ 9
    ⟨2, [⟨some "e", none⟩, ⟨some "e", none⟩]⟩ (by decide) (by decide)
  exact ⟨by decide, by decide, h.1, h.2.1, h.2.2.1, h.2.2.2.2.2.1 rfl⟩

/-- C8: for every response with `failedCount = 0`, `processAPIResponse`
clears the watchdog's failing-since, empties the pending batch, resets
the aggregate size to 0, and returns success-status. -/
theorem full_success_clears_state (st : OutputPlugin) (now : Nat)
    (resp : PutRecordBatchOutput) (h : resp.FailedPutCount = 0) :
    (processAPIResponse st now resp).1.timer.failingSince = none ∧
    (processAPIResponse st now resp).1.records = [] ∧
    (processAPIResponse st now resp).1.dataLength = 0 ∧
    (processAPIResponse st now resp).2.1 = RetCode.FLB_OK := by
  simp [processAPIResponse, h, Timeout.reset]

/-- C8 witness: a fully successful send on a two-record batch with the
watchdog armed clears everything. -/
theorem full_success_clears_state_witness :
    ((⟨0, [⟨none, none⟩, ⟨none, none⟩]⟩ : PutRecordBatchOutput).FailedPutCount = 0) ∧
    ((processAPIResponse ⟨"", false, [⟨[1]⟩, ⟨[2]⟩], 2, ⟨some 3⟩⟩ 9
        ⟨0, [⟨none, none⟩, ⟨none, none⟩]⟩).1.timer.failingSince = none ∧
      (processAPIResponse ⟨"", false, [⟨[1]⟩, ⟨[2]⟩], 2, ⟨some 3⟩⟩ 9
        ⟨0, [⟨none, none⟩, ⟨none, none⟩]⟩).1.records = [] ∧
      (processAPIResponse ⟨"", false, [⟨[1]⟩, ⟨[2]⟩], 2, ⟨some 3⟩⟩ 9
        ⟨0, [⟨none, none⟩, ⟨none, none⟩]⟩).1.dataLength = 0 ∧
      (processAPIResponse ⟨"", false, [⟨[1]⟩, ⟨[2]⟩], 2, ⟨some 3⟩⟩ 9
        ⟨0, [⟨none, none⟩, ⟨none, none⟩]⟩).2.1 = RetCode.FLB_OK) :=
  ⟨by decide, full_success_clears_state _ _ _ (by decide)⟩

/-- The per-record size cap: `processRecord` output never exceeds
1,024,000 bytes. -/
theorem processRecord_le (raw : List Nat) :
    (processRecord raw).length ≤ maximumRecordSize := by
  unfold processRecord
  by_cases h : raw.length > maximumRecordSize
  · rw [if_pos h]
    have h' : raw.length > 1024000 := h
    have h14 : truncatedSuffix.length = 14 := rfl
    simp only [List.length_append, List.length_take, h14]
    have : maximumRecordSize = 1024000 := rfl
    rw [this] at *
    omega
  · rw [if_neg h]; omega

/-- C6: every encoded record (JSON / log-key encoding with the newline
already appended) longer than 1,024,000 bytes is stored as exactly
1,024,000 bytes ending in the "[Truncated...]" suffix; records of
1,024,000 bytes or fewer are stored unmodified. -/
theorem processRecord_truncation (data : List Nat) :
    (data.length > maximumRecordSize →
      (processRecord data).length = maximumRecordSize ∧
      truncatedSuffix.IsSuffix (processRecord data)) ∧
    (data.length ≤ maximumRecordSize → processRecord data = data) := by
  constructor
  · intro h
    have h' : data.length > 1024000 := h
    unfold processRecord
    rw [if_pos h]
    constructor
    · have h14 : truncatedSuffix.length = 14 := rfl
      simp only [List.length_append, List.length_take, h14]
      show min (maximumRecordSize - 14) data.length + 14 = maximumRecordSize
      have hm : maximumRecordSize = 1024000 := rfl
      rw [hm]
      omega
    · exact ⟨_, rfl⟩
  · intro h
    unfold processRecord
    rw [if_neg (Nat.not_lt.mpr h)]

/-- C6 witness: a 1,024,001-byte record is truncated to exactly 1,024,000
bytes ending in the suffix marker. -/
theorem processRecord_truncation_witness :
    (List.replicate 1024001 (0 : Nat)).length > maximumRecordSize ∧
    ((processRecord (List.replicate 1024001 (0 : Nat))).length = maximumRecordSize ∧
      truncatedSuffix.IsSuffix (processRecord (List.replicate 1024001 (0 : Nat)))) := by
  have h : (List.replicate 1024001 (0 : Nat)).length > maximumRecordSize := by
    rw [List.length_replicate]
    show 1024000 < 1024001
    omega
  exact ⟨h, (processRecord_truncation (List.replicate 1024001 0)).1 h⟩

/-! Claim theorems about `AddRecord`. -/

/-- Merge case of the append step. -/
theorem appendToBatch_merge (st : OutputPlugin) (data : List Nat)
    (hc : st.simpleAggregation = true ∧ st.records ≠ [] ∧
      (st.records.getLastD ⟨[]⟩).Data.length + data.length ≤ maximumRecordSize) :
    (appendToBatch st data).records =
      st.records.dropLast ++ [⟨(st.records.getLastD ⟨[]⟩).Data ++ data⟩] ∧
    (appendToBatch st data).records.length = st.records.length := by
  unfold appendToBatch
  rw [if_pos hc]
  refine ⟨rfl, ?_⟩
  have hpos := List.length_pos.mpr hc.2.1
  simp only [List.length_append, List.length_dropLast, List.length_singleton]
  omega

/-- New-entry case of the append step. -/
theorem appendToBatch_new (st : OutputPlugin) (data : List Nat)
    (hc : ¬(st.simpleAggregation = true ∧ st.records ≠ [] ∧
      (st.records.getLastD ⟨[]⟩).Data.length + data.length ≤ maximumRecordSize)) :
    (appendToBatch st data).records = st.records ++ [⟨data⟩] := by
  unfold appendToBatch
  rw [if_neg hc]

/-- C7: in `AddRecord`, when aggregation is enabled, the batch at the
append step is non-empty, and the last held record's length plus the new
encoded record's length is at most 1,024,000, the new bytes are appended
onto the last record (no new entry: the record count is unchanged); in
every other case — including aggregation disabled — a new record entry is
appended. The first conjunct covers the run with no implicit flush; the
second covers the run whose implicit flush returned success, where the
append-step conditions read the post-flush batch. -/
theorem addRecord_aggregation (st : OutputPlugin) (raw : List Nat) (now : Nat)
    (client : ClientResult) :
    (¬ sendTrigger st (processRecord raw).length →
      ((st.simpleAggregation = true ∧ st.records ≠ [] ∧
          (st.records.getLastD ⟨[]⟩).Data.length + (processRecord raw).length ≤
            maximumRecordSize) →
        (AddRecord st true (some raw) now client).1.records =
          st.records.dropLast ++
            [⟨(st.records.getLastD ⟨[]⟩).Data ++ processRecord raw⟩] ∧
        (AddRecord st true (some raw) now client).1.records.length =
          st.records.length) ∧
      (¬(st.simpleAggregation = true ∧ st.records ≠ [] ∧
          (st.records.getLastD ⟨[]⟩).Data.length + (processRecord raw).length ≤
            maximumRecordSize) →
        (AddRecord st true (some raw) now client).1.records =
          st.records ++ [⟨processRecord raw⟩])) ∧
    (sendTrigger st (processRecord raw).length →
      (sendCurrentBatch st now client).2.1 = RetCode.FLB_OK →
      (((sendCurrentBatch st now client).1.simpleAggregation = true ∧
          (sendCurrentBatch st now client).1.records ≠ [] ∧
          ((sendCurrentBatch st now client).1.records.getLastD ⟨[]⟩).Data.length +
            (processRecord raw).length ≤ maximumRecordSize) →
        (AddRecord st true (some raw) now client).1.records =
          (sendCurrentBatch st now client).1.records.dropLast ++
            [⟨((sendCurrentBatch st now client).1.records.getLastD ⟨[]⟩).Data ++
              processRecord raw⟩] ∧
        (AddRecord st true (some raw) now client).1.records.length =
          (sendCurrentBatch st now client).1.records.length) ∧
      (¬((sendCurrentBatch st now client).1.simpleAggregation = true ∧
          (sendCurrentBatch st now client).1.records ≠ [] ∧
          ((sendCurrentBatch st now client).1.records.getLastD ⟨[]⟩).Data.length +
            (processRecord raw).length ≤ maximumRecordSize) →
        (AddRecord st true (some raw) now client).1.records =
          (sendCurrentBatch st now client).1.records ++ [⟨processRecord raw⟩])) := by
  constructor
  · intro hn
    have hred : AddRecord st true (some raw) now client =
        (appendToBatch st (processRecord raw), RetCode.FLB_OK) := by
      simp [AddRecord, hn]
    constructor
    · intro hc; rw [hred]; exact appendToBatch_merge st _ hc
    · intro hc; rw [hred]; exact appendToBatch_new st _ hc
  · intro ht hok
    have hred : AddRecord st true (some raw) now client =
        (appendToBatch (sendCurrentBatch st now client).1 (processRecord raw),
          RetCode.FLB_OK) := by
      simp [AddRecord, ht, hok]
    constructor
    · intro hc; rw [hred]; exact appendToBatch_merge _ _ hc
    · intro hc; rw [hred]; exact appendToBatch_new _ _ hc

/-- C7 witness: the spec example — aggregation enabled, a held 100-byte
record and a new 200-byte record merge into one 300-byte entry (record
count stays 1). -/
theorem addRecord_aggregation_witness :
    (¬ sendTrigger (⟨"", true, [⟨List.replicate 100 7⟩], 100, ⟨none⟩⟩ : OutputPlugin)
        (processRecord (List.replicate 200 7)).length) ∧
    ((⟨"", true, [⟨List.replicate 100 7⟩], 100, ⟨none⟩⟩ : OutputPlugin).simpleAggregation
          = true ∧
      (⟨"", true, [⟨List.replicate 100 7⟩], 100, ⟨none⟩⟩ : OutputPlugin).records ≠ [] ∧
      ((⟨"", true, [⟨List.replicate 100 7⟩], 100,
            ⟨none⟩⟩ : OutputPlugin).records.getLastD ⟨[]⟩).Data.length +
          (processRecord (List.replicate 200 7)).length ≤ maximumRecordSize) ∧
    ((AddRecord ⟨"", true, [⟨List.replicate 100 7⟩], 100, ⟨none⟩⟩ true
        (some (List.replicate 200 7)) 0 (ClientResult.transportError none)).1.records =
      [⟨List.replicate 100 7 ++ List.replicate 200 7⟩] ∧
      (AddRecord ⟨"", true, [⟨List.replicate 100 7⟩], 100, ⟨none⟩⟩ true
        (some (List.replicate 200 7)) 0
        (ClientResult.transportError none)).1.records.length = 1) := by
  refine ⟨by decide, by decide, ?_⟩
  have h := ((addRecord_aggregation ⟨"", true, [⟨List.replicate 100 7⟩], 100, ⟨none⟩⟩
    (List.replicate 200 7) 0 (ClientResult.transportError none)).1 (by decide)).1 (by decide)
  refine ⟨?_, h.2⟩
  rw [h.1]
  decide

/-- C9: when the implicit flush triggered inside `AddRecord` returns a
status other than success, `AddRecord` returns that status immediately and
the new record is not appended — the resulting state is exactly the state
the flush left. -/
theorem failed_implicit_flush_discards_record (st : OutputPlugin) (raw : List Nat)
    (now : Nat) (client : ClientResult)
    (htrig : sendTrigger st (processRecord raw).length)
    (hfail : (sendCurrentBatch st now client).2.1 ≠ RetCode.FLB_OK) :
    AddRecord st true (some raw) now client =
      ((sendCurrentBatch st now client).1, (sendCurrentBatch st now client).2.1) := by
  simp [AddRecord, htrig, hfail]

/-- C9 witness: a size-triggered implicit flush hits a transport error;
`AddRecord` returns retry and discards the new record. -/
theorem failed_implicit_flush_discards_record_witness :
    sendTrigger (⟨"", false, [⟨[0]⟩], 4194304, ⟨none⟩⟩ : OutputPlugin)
      (processRecord [0, 1]).length ∧
    (sendCurrentBatch (⟨"", false, [⟨[0]⟩], 4194304, ⟨none⟩⟩ : OutputPlugin) 0
        (ClientResult.transportError none)).2.1 ≠ RetCode.FLB_OK ∧
    AddRecord (⟨"", false, [⟨[0]⟩], 4194304, ⟨none⟩⟩ : OutputPlugin) true (some [0, 1]) 0
        (ClientResult.transportError none) =
      ((sendCurrentBatch (⟨"", false, [⟨[0]⟩], 4194304, ⟨none⟩⟩ : OutputPlugin) 0
          (ClientResult.transportError none)).1,
        (sendCurrentBatch (⟨"", false, [⟨[0]⟩], 4194304, ⟨none⟩⟩ : OutputPlugin) 0
          (ClientResult.transportError none)).2.1) :=
  ⟨by decide, by decide,
    failed_implicit_flush_discards_record _ _ _ _ (by decide) (by decide)⟩

/-- C10: when a time key is configured and the timestamp formatting
fails, `AddRecord` returns `FLB_ERROR` — a third outcome distinct from
both success and retry — and drops the record, leaving the whole plugin
state (batch and aggregate size included) unchanged. -/
theorem time_format_failure_returns_error (st : OutputPlugin)
    (encoded : Option (List Nat)) (now : Nat) (client : ClientResult)
    (h : st.timeKey ≠ "") :
    AddRecord st false encoded now client = (st, RetCode.FLB_ERROR) ∧
    RetCode.FLB_ERROR ≠ RetCode.FLB_OK ∧ RetCode.FLB_ERROR ≠ RetCode.FLB_RETRY := by
  refine ⟨?_, by decide, by decide⟩
  simp [AddRecord, h]

/-- C10 witness: with time key "time" and a failing format call, the call
returns the error status and the state is untouched. -/
theorem time_format_failure_returns_error_witness :
    ((⟨"time", false, [⟨[1]⟩], 1, ⟨none⟩⟩ : OutputPlugin).timeKey ≠ "") ∧
    (AddRecord (⟨"time", false, [⟨[1]⟩], 1, ⟨none⟩⟩ : OutputPlugin) false (some [2]) 0
        (ClientResult.transportError none) =
      (⟨"time", false, [⟨[1]⟩], 1, ⟨none⟩⟩, RetCode.FLB_ERROR) ∧
      RetCode.FLB_ERROR ≠ RetCode.FLB_OK ∧ RetCode.FLB_ERROR ≠ RetCode.FLB_RETRY) :=
  ⟨by decide, time_format_failure_returns_error _ _ _ _ (by decide)⟩

/-! Size-accounting invariant (claim C5). -/

theorem sizeInv_processAPIResponse (st : OutputPlugin) (now : Nat)
    (resp : PutRecordBatchOutput) (h : sizeInv st) :
    sizeInv (processAPIResponse st now resp).1 := by
  unfold processAPIResponse
  split
  · split
    · exact h
    · split
      · exact h
      · rfl
  · rfl

theorem sizeInv_sendCurrentBatch (st : OutputPlugin) (now : Nat)
    (client : ClientResult) (h : sizeInv st) :
    sizeInv (sendCurrentBatch st now client).1 := by
  unfold sendCurrentBatch
  split
  · exact h
  · cases client with
    | transportError c => exact h
    | output resp => exact sizeInv_processAPIResponse _ _ _ h

theorem appendToBatch_dataLength (st : OutputPlugin) (data : List Nat) :
    (appendToBatch st data).dataLength = st.dataLength + data.length := by
  unfold appendToBatch
  split <;> rfl

theorem getLastD_eq_getLast (l : List Record) (h : l ≠ []) (d : Record) :
    l.getLastD d = l.getLast h := by
  rw [List.getLastD_eq_getLast?, List.getLast?_eq_getLast l h]
  rfl

theorem sizeInv_appendToBatch (st : OutputPlugin) (data : List Nat) (h : sizeInv st) :
    sizeInv (appendToBatch st data) := by
  unfold appendToBatch
  split
  · rename_i hc
    show st.dataLength + data.length =
      batchSize (st.records.dropLast ++ [⟨(st.records.getLastD ⟨[]⟩).Data ++ data⟩])
    have hne := hc.2.1
    have hsplit := List.dropLast_append_getLast hne
    have hgl := getLastD_eq_getLast st.records hne ⟨[]⟩
    have hrec : batchSize st.records =
        batchSize st.records.dropLast + (st.records.getLastD ⟨[]⟩).Data.length := by
      conv_lhs => rw [← hsplit]
      rw [batchSize_append, batchSize_singleton, hgl]
    rw [batchSize_append, batchSize_singleton]
    simp only [List.length_append]
    rw [h, hrec]
    omega
  · show st.dataLength + data.length = batchSize (st.records ++ [⟨data⟩])
    rw [batchSize_append, batchSize_singleton, h]

theorem sizeInv_AddRecord (st : OutputPlugin) (fmtOk : Bool)
    (encoded : Option (List Nat)) (now : Nat) (client : ClientResult)
    (h : sizeInv st) : sizeInv (AddRecord st fmtOk encoded now client).1 := by
  unfold AddRecord
  split
  · exact h
  · cases encoded with
    | none => exact h
    | some raw =>
      simp only
      split
      · split
        · exact sizeInv_sendCurrentBatch _ _ _ h
        · exact sizeInv_appendToBatch _ _ (sizeInv_sendCurrentBatch _ _ _ h)
      · exact sizeInv_appendToBatch _ _ h

theorem sizeInv_Flush (st : OutputPlugin) (now : Nat) (client : ClientResult)
    (h : sizeInv st) : sizeInv (Flush st now client).1 :=
  sizeInv_sendCurrentBatch _ _ _ h

theorem sizeInv_stepEvent (st : OutputPlugin) (e : Event) (h : sizeInv st) :
    sizeInv (stepEvent st e) := by
  cases e with
  | add f enc n c => exact sizeInv_AddRecord _ _ _ _ _ h
  | flush n c => exact sizeInv_Flush _ _ _ h

theorem sizeInv_runEvents :
    ∀ (events : List Event) (st : OutputPlugin), sizeInv st →
      sizeInv (runEvents st events) := by
  intro events
  induction events with
  | nil => intro st h; exact h
  | cons e es ih => intro st h; exact ih _ (sizeInv_stepEvent st e h)

/-- C5: after every `AddRecord`, `Flush` or send operation, the tracked
`dataLength` equals the sum of the byte lengths of the held records'
data; in particular the invariant holds in every state reachable from a
freshly constructed plugin by any sequence of calls. -/
theorem dataLength_tracks_batch :
    (∀ (st : OutputPlugin) (fmtOk : Bool) (encoded : Option (List Nat)) (now : Nat)
      (client : ClientResult), sizeInv st →
        sizeInv (AddRecord st fmtOk encoded now client).1) ∧
    (∀ (st : OutputPlugin) (now : Nat) (client : ClientResult), sizeInv st →
      sizeInv (Flush st now client).1) ∧
    (∀ (st : OutputPlugin) (now : Nat) (client : ClientResult), sizeInv st →
      sizeInv (sendCurrentBatch st now client).1) ∧
    (∀ (timeKey : String) (agg : Bool) (events : List Event),
      sizeInv (runEvents (initialPlugin timeKey agg) events)) :=
  ⟨fun st f e n c h => sizeInv_AddRecord st f e n c h,
    fun st n c h => sizeInv_Flush st n c h,
    fun st n c h => sizeInv_sendCurrentBatch st n c h,
    fun tk agg events => sizeInv_runEvents events (initialPlugin tk agg) rfl⟩

/-- C5 witness: the invariant after an `AddRecord` that appends a 3-byte
record onto a consistent 1-record state. -/
theorem dataLength_tracks_batch_witness :
    sizeInv (⟨"", false, [⟨[5]⟩], 1, ⟨none⟩⟩ : OutputPlugin) ∧
    sizeInv (AddRecord (⟨"", false, [⟨[5]⟩], 1, ⟨none⟩⟩ : OutputPlugin) true
      (some [1, 2, 3]) 0 (ClientResult.transportError none)).1 :=
  ⟨by decide, dataLength_tracks_batch.1 _ _ _ _ _ (by decide)⟩

/-! Batch-bound machinery (claim C1). -/

theorem processAPIResponse_cases (st : OutputPlugin) (now : Nat)
    (resp : PutRecordBatchOutput) :
    ((processAPIResponse st now resp).1.records = st.records ∧
      (processAPIResponse st now resp).1.dataLength = st.dataLength ∧
      (processAPIResponse st now resp).2.1 = RetCode.FLB_RETRY) ∨
    ((processAPIResponse st now resp).1.records = [] ∧
      (processAPIResponse st now resp).1.dataLength = 0 ∧
      (processAPIResponse st now resp).2.1 = RetCode.FLB_OK) ∨
    (∃ fr, collectFailed st.records resp.RequestResponses 0 [] = some fr ∧
      0 < resp.FailedPutCount ∧ resp.FailedPutCount ≠ st.records.length ∧
      (processAPIResponse st now resp).1.records = fr ∧
      (processAPIResponse st now resp).1.dataLength = batchSize fr ∧
      (processAPIResponse st now resp).2.1 = RetCode.FLB_OK) := by
  unfold processAPIResponse
  by_cases h1 : resp.FailedPutCount > 0
  · rw [if_pos h1]
    by_cases h2 : resp.FailedPutCount = st.records.length
    · rw [if_pos h2]; left; exact ⟨rfl, rfl, rfl⟩
    · rw [if_neg h2]
      rcases hcf : collectFailed st.records resp.RequestResponses 0 [] with _ | fr
      · left; exact ⟨rfl, rfl, rfl⟩
      · right; right; exact ⟨fr, rfl, h1, h2, rfl, rfl, rfl⟩
  · rw [if_neg h1]; right; left; exact ⟨rfl, rfl, rfl⟩

theorem sendCurrentBatch_cases (st : OutputPlugin) (now : Nat) (client : ClientResult) :
    ((sendCurrentBatch st now client).1.records = st.records ∧
      (sendCurrentBatch st now client).1.dataLength = st.dataLength ∧
      ((sendCurrentBatch st now client).2.1 = RetCode.FLB_OK → st.records = [])) ∨
    ((sendCurrentBatch st now client).1.records = [] ∧
      (sendCurrentBatch st now client).1.dataLength = 0 ∧
      (sendCurrentBatch st now client).2.1 = RetCode.FLB_OK) ∨
    (∃ resp fr, client = ClientResult.output resp ∧ st.records ≠ [] ∧
      collectFailed st.records resp.RequestResponses 0 [] = some fr ∧
      0 < resp.FailedPutCount ∧ resp.FailedPutCount ≠ st.records.length ∧
      (sendCurrentBatch st now client).1.records = fr ∧
      (sendCurrentBatch st now client).1.dataLength = batchSize fr ∧
      (sendCurrentBatch st now client).2.1 = RetCode.FLB_OK) := by
  unfold sendCurrentBatch
  by_cases hne : st.records = []
  · rw [if_pos hne]; left; exact ⟨rfl, rfl, fun _ => hne⟩
  · rw [if_neg hne]
    cases client with
    | transportError c =>
      left; exact ⟨rfl, rfl, fun h => RetCode.noConfusion h⟩
    | output resp =>
      rcases processAPIResponse_cases { st with timer := st.timer.check } now resp
        with h | h | h
      · left
        exact ⟨h.1, h.2.1, fun hok => RetCode.noConfusion (h.2.2.symm.trans hok)⟩
      · right; left; exact h
      · right; right
        obtain ⟨fr, hcf, hp, hq, hr, hd, hret⟩ := h
        exact ⟨resp, fr, rfl, hne, hcf, hp, hq, hr, hd, hret⟩

/-- A reconstruction that succeeded is a sublist of the batch, given the
contract bound on the outcome-list length. -/
theorem collectFailed_sublist (records : List Record)
    (entries : List PutRecordBatchEntry) (fr : List Record)
    (hlen : entries.length ≤ records.length)
    (h : collectFailed records entries 0 [] = some fr) : fr.Sublist records := by
  have hnosu : ∀ e ∈ entries,
      stringValue e.ErrorCode ≠ ErrCodeServiceUnavailableException := by
    intro e he hcode
    rw [collectFailed_none records entries 0 [] ⟨e, he, hcode⟩] at h
    exact Option.noConfusion h
  rw [collectFailed_some records entries 0 [] hnosu (by omega)] at h
  simp only [List.drop_zero, List.nil_append, Option.some.injEq] at h
  rw [← h]
  exact zip_filter_map_sublist _ entries records

theorem consistentResponse_output (b : List Record) (resp : PutRecordBatchOutput)
    (h : consistentResponse b (ClientResult.output resp) = true) :
    resp.RequestResponses.length = b.length ∧
    resp.FailedPutCount =
      (resp.RequestResponses.filter fun e => e.ErrorMessage.isSome).length := by
  simp only [consistentResponse, Bool.and_eq_true, decide_eq_true_eq] at h
  exact h

theorem send_not_ok_preserves (st : OutputPlugin) (now : Nat) (client : ClientResult)
    (h : (sendCurrentBatch st now client).2.1 ≠ RetCode.FLB_OK) :
    (sendCurrentBatch st now client).1.records = st.records ∧
    (sendCurrentBatch st now client).1.dataLength = st.dataLength := by
  rcases sendCurrentBatch_cases st now client with hc | hc | hc
  · exact ⟨hc.1, hc.2.1⟩
  · exact absurd hc.2.2 h
  · obtain ⟨_, _, _, _, _, _, _, _, _, hret⟩ := hc; exact absurd hret h

/-- Under the contract, a send that reports success leaves strictly fewer
than 500 records pending. -/
theorem send_ok_count (st : OutputPlugin) (now : Nat) (client : ClientResult)
    (h500 : st.records.length ≤ maximumRecordsPerPut)
    (hcons : st.records ≠ [] → consistentResponse st.records client = true)
    (hok : (sendCurrentBatch st now client).2.1 = RetCode.FLB_OK) :
    (sendCurrentBatch st now client).1.records.length < maximumRecordsPerPut := by
  rcases sendCurrentBatch_cases st now client with h | h | h
  · rw [h.1, h.2.2 hok]; decide
  · rw [h.1]; decide
  · obtain ⟨resp, fr, hc, hne, hcf, hpos, hneq, hr, _, _⟩ := h
    have hcons' := consistentResponse_output _ _ (hc ▸ hcons hne)
    have hcount := collectFailed_length st.records resp.RequestResponses 0 [] fr hcf
    have hfle : (resp.RequestResponses.filter fun e => e.ErrorMessage.isSome).length ≤
        resp.RequestResponses.length := List.length_filter_le _ _
    rw [hr]
    have h1 := hcons'.1
    have h2 := hcons'.2
    simp only [List.length_nil, Nat.zero_add] at hcount
    omega

/-- A send that reports success while its response was not of the
subset-rebuilding kind leaves the batch empty. -/
theorem send_ok_safe_empties (st : OutputPlugin) (now : Nat) (client : ClientResult)
    (hinv : sizeInv st)
    (hsafe : st.records ≠ [] → rebuildsSubset st.records client = false)
    (hok : (sendCurrentBatch st now client).2.1 = RetCode.FLB_OK) :
    (sendCurrentBatch st now client).1.records = [] ∧
    (sendCurrentBatch st now client).1.dataLength = 0 := by
  rcases sendCurrentBatch_cases st now client with h | h | h
  · have hnil := h.2.2 hok
    refine ⟨h.1.trans hnil, ?_⟩
    rw [h.2.1, hinv, hnil, batchSize_nil]
  · exact ⟨h.1, h.2.1⟩
  · obtain ⟨resp, fr, hc, hne, hcf, hpos, hneq, _, _, _⟩ := h
    exfalso
    have hnosu : ∀ e ∈ resp.RequestResponses,
        stringValue e.ErrorCode ≠ ErrCodeServiceUnavailableException := by
      intro e he hcode
      rw [collectFailed_none st.records resp.RequestResponses 0 [] ⟨e, he, hcode⟩] at hcf
      exact Option.noConfusion hcf
    have hrb : rebuildsSubset st.records client = true := by
      rw [hc]
      simp only [rebuildsSubset, Bool.and_eq_true, decide_eq_true_eq, List.all_eq_true]
      exact ⟨⟨hpos, hneq⟩, fun e he => hnosu e he⟩
    rw [hsafe hne] at hrb
    exact Bool.noConfusion hrb

/-- Under contract and size-accounting hypotheses, a send never increases
the tracked aggregate size past the 4 MiB bound. -/
theorem send_size (st : OutputPlugin) (now : Nat) (client : ClientResult)
    (hinv : sizeInv st)
    (hsize : st.dataLength ≤ maximumPutRecordBatchSize)
    (hcons : st.records ≠ [] → consistentResponse st.records client = true) :
    (sendCurrentBatch st now client).1.dataLength ≤ maximumPutRecordBatchSize := by
  rcases sendCurrentBatch_cases st now client with h | h | h
  · rw [h.2.1]; exact hsize
  · rw [h.2.1]; exact Nat.zero_le _
  · obtain ⟨resp, fr, hc, hne, hcf, _, _, _, hd, _⟩ := h
    have hcons' := consistentResponse_output _ _ (hc ▸ hcons hne)
    have hsub := collectFailed_sublist st.records resp.RequestResponses fr
      (Nat.le_of_eq hcons'.1) hcf
    rw [hd]
    calc batchSize fr ≤ batchSize st.records := batchSize_le_of_sublist hsub
      _ = st.dataLength := hinv.symm
      _ ≤ _ := hsize

/-! Reduction lemmas for the branches of `AddRecord`. -/

theorem AddRecord_fmt_error (st : OutputPlugin) (f : Bool) (enc : Option (List Nat))
    (n : Nat) (c : ClientResult) (h1 : st.timeKey ≠ "" ∧ f = false) :
    AddRecord st f enc n c = (st, RetCode.FLB_ERROR) := by
  simp [AddRecord, h1]

theorem AddRecord_drop (st : OutputPlugin) (f : Bool) (n : Nat) (c : ClientResult)
    (h1 : ¬(st.timeKey ≠ "" ∧ f = false)) :
    AddRecord st f none n c = (st, RetCode.FLB_OK) := by
  simp [AddRecord, h1]

theorem AddRecord_noTrigger (st : OutputPlugin) (f : Bool) (raw : List Nat) (n : Nat)
    (c : ClientResult) (h1 : ¬(st.timeKey ≠ "" ∧ f = false))
    (ht : ¬ sendTrigger st (processRecord raw).length) :
    AddRecord st f (some raw) n c =
      (appendToBatch st (processRecord raw), RetCode.FLB_OK) := by
  simp [AddRecord, h1, ht]

theorem AddRecord_trigger_ok (st : OutputPlugin) (f : Bool) (raw : List Nat) (n : Nat)
    (c : ClientResult) (h1 : ¬(st.timeKey ≠ "" ∧ f = false))
    (ht : sendTrigger st (processRecord raw).length)
    (hok : (sendCurrentBatch st n c).2.1 = RetCode.FLB_OK) :
    AddRecord st f (some raw) n c =
      (appendToBatch (sendCurrentBatch st n c).1 (processRecord raw),
        RetCode.FLB_OK) := by
  simp [AddRecord, h1, ht, hok]

theorem AddRecord_trigger_fail (st : OutputPlugin) (f : Bool) (raw : List Nat) (n : Nat)
    (c : ClientResult) (h1 : ¬(st.timeKey ≠ "" ∧ f = false))
    (ht : sendTrigger st (processRecord raw).length)
    (hfail : (sendCurrentBatch st n c).2.1 ≠ RetCode.FLB_OK) :
    AddRecord st f (some raw) n c =
      ((sendCurrentBatch st n c).1, (sendCurrentBatch st n c).2.1) := by
  simp [AddRecord, h1, ht, hfail]

theorem appendToBatch_length (st : OutputPlugin) (data : List Nat) :
    (appendToBatch st data).records.length ≤ st.records.length + 1 := by
  unfold appendToBatch
  split
  · simp only [List.length_append, List.length_dropLast, List.length_singleton]
    omega
  · simp

/-- Every batch an event hands to the client is the pending batch at that
instant. -/
theorem sendIssues_mem (st : OutputPlugin) (e : Event) (b : List Record)
    (h : b ∈ sendIssues st e) : b = st.records := by
  cases e with
  | add f enc n c =>
    by_cases h1 : st.timeKey ≠ "" ∧ f = false
    · simp [sendIssues, h1] at h
    · simp only [sendIssues, if_neg h1] at h
      cases enc with
      | none => simp at h
      | some raw =>
        simp at h
        exact h.2
  | flush n c =>
    simp only [sendIssues] at h
    split at h
    · simpa using h
    · simp at h

theorem contractTrace_cons (st : OutputPlugin) (e : Event) (es : List Event) :
    contractTrace st (e :: es) = true ↔
      ((sendIssues st e).all (fun b => consistentResponse b (clientOf e)) = true ∧
        contractTrace (stepEvent st e) es = true) := by
  simp [contractTrace, Bool.and_eq_true]

theorem implicitSafe_cons_add (st : OutputPlugin) (f : Bool)
    (enc : Option (List Nat)) (n : Nat) (c : ClientResult) (es : List Event) :
    implicitSafe st (Event.add f enc n c :: es) = true ↔
      ((sendIssues st (Event.add f enc n c)).all
          (fun b => !(rebuildsSubset b c)) = true ∧
        implicitSafe (stepEvent st (Event.add f enc n c)) es = true) := by
  simp [implicitSafe, Bool.and_eq_true]

theorem implicitSafe_cons_flush (st : OutputPlugin) (n : Nat) (c : ClientResult)
    (es : List Event) :
    implicitSafe st (Event.flush n c :: es) = true ↔
      implicitSafe (stepEvent st (Event.flush n c)) es = true := by
  simp [implicitSafe]

/-- One event preserves the 500-record bound, given contract-respecting
responses. -/
theorem count_step (st : OutputPlugin) (e : Event)
    (h500 : st.records.length ≤ maximumRecordsPerPut)
    (hcons : (sendIssues st e).all (fun b => consistentResponse b (clientOf e)) = true) :
    (stepEvent st e).records.length ≤ maximumRecordsPerPut := by
  cases e with
  | flush n c =>
    have hc : st.records ≠ [] → consistentResponse st.records c = true := by
      intro hne
      have hsi : sendIssues st (Event.flush n c) = [st.records] := by
        simp [sendIssues, hne]
      rw [hsi] at hcons
      simpa [clientOf] using hcons
    show (Flush st n c).1.records.length ≤ maximumRecordsPerPut
    by_cases hok : (sendCurrentBatch st n c).2.1 = RetCode.FLB_OK
    · exact Nat.le_of_lt (send_ok_count st n c h500 hc hok)
    · show (sendCurrentBatch st n c).1.records.length ≤ maximumRecordsPerPut
      rw [(send_not_ok_preserves st n c hok).1]; exact h500
  | add f enc n c =>
    show (AddRecord st f enc n c).1.records.length ≤ maximumRecordsPerPut
    by_cases h1 : st.timeKey ≠ "" ∧ f = false
    · rw [AddRecord_fmt_error st f enc n c h1]; exact h500
    · cases enc with
      | none => rw [AddRecord_drop st f n c h1]; exact h500
      | some raw =>
        by_cases ht : sendTrigger st (processRecord raw).length
        · by_cases hnil : st.records = []
          · have hok : (sendCurrentBatch st n c).2.1 = RetCode.FLB_OK := by
              unfold sendCurrentBatch; rw [if_pos hnil]
            rw [AddRecord_trigger_ok st f raw n c h1 ht hok]
            have hsend : (sendCurrentBatch st n c).1 = st := by
              unfold sendCurrentBatch; rw [if_pos hnil]
            rw [hsend]
            calc (appendToBatch st (processRecord raw)).records.length
                ≤ st.records.length + 1 := appendToBatch_length _ _
              _ ≤ maximumRecordsPerPut := by rw [hnil]; decide
          · have hc : consistentResponse st.records c = true := by
              have hsi : sendIssues st (Event.add f (some raw) n c) = [st.records] := by
                simp [sendIssues, h1, ht, hnil]
              rw [hsi] at hcons
              simpa [clientOf] using hcons
            by_cases hok : (sendCurrentBatch st n c).2.1 = RetCode.FLB_OK
            · have hlt := send_ok_count st n c h500 (fun _ => hc) hok
              rw [AddRecord_trigger_ok st f raw n c h1 ht hok]
              calc (appendToBatch _ _).records.length
                  ≤ (sendCurrentBatch st n c).1.records.length + 1 :=
                    appendToBatch_length _ _
                _ ≤ maximumRecordsPerPut := hlt
            · rw [AddRecord_trigger_fail st f raw n c h1 ht hok,
                (send_not_ok_preserves st n c hok).1]
              exact h500
        · have hne500 : st.records.length ≠ maximumRecordsPerPut :=
            fun hh => ht (Or.inl hh)
          rw [AddRecord_noTrigger st f raw n c h1 ht]
          calc (appendToBatch st (processRecord raw)).records.length
              ≤ st.records.length + 1 := appendToBatch_length _ _
            _ ≤ maximumRecordsPerPut := by omega

/-- One `AddRecord` preserves the 4 MiB bound on the tracked size, given
contract-respecting responses and no subset-rebuilding response to the
implicit flush. -/
theorem size_step_add (st : OutputPlugin) (f : Bool) (enc : Option (List Nat))
    (n : Nat) (c : ClientResult) (hinv : sizeInv st)
    (hsize : st.dataLength ≤ maximumPutRecordBatchSize)
    (hcons : (sendIssues st (Event.add f enc n c)).all
      (fun b => consistentResponse b c) = true)
    (hsafe : (sendIssues st (Event.add f enc n c)).all
      (fun b => !(rebuildsSubset b c)) = true) :
    (AddRecord st f enc n c).1.dataLength ≤ maximumPutRecordBatchSize := by
  by_cases h1 : st.timeKey ≠ "" ∧ f = false
  · rw [AddRecord_fmt_error st f enc n c h1]; exact hsize
  · cases enc with
    | none => rw [AddRecord_drop st f n c h1]; exact hsize
    | some raw =>
      by_cases ht : sendTrigger st (processRecord raw).length
      · by_cases hnil : st.records = []
        · have hok : (sendCurrentBatch st n c).2.1 = RetCode.FLB_OK := by
            unfold sendCurrentBatch; rw [if_pos hnil]
          have hsend : (sendCurrentBatch st n c).1 = st := by
            unfold sendCurrentBatch; rw [if_pos hnil]
          rw [AddRecord_trigger_ok st f raw n c h1 ht hok, appendToBatch_dataLength,
            hsend]
          have hdl : st.dataLength = 0 := by rw [hinv, hnil, batchSize_nil]
          have hle := processRecord_le raw
          have hbound : maximumRecordSize ≤ maximumPutRecordBatchSize := by decide
          omega
        · have hsi : sendIssues st (Event.add f (some raw) n c) = [st.records] := by
            simp [sendIssues, h1, ht, hnil]
          have hc : consistentResponse st.records c = true := by
            rw [hsi] at hcons; simpa using hcons
          have hs : rebuildsSubset st.records c = false := by
            rw [hsi] at hsafe; simpa using hsafe
          by_cases hok : (sendCurrentBatch st n c).2.1 = RetCode.FLB_OK
          · have hempty := send_ok_safe_empties st n c hinv (fun _ => hs) hok
            rw [AddRecord_trigger_ok st f raw n c h1 ht hok, appendToBatch_dataLength,
              hempty.2]
            have hle := processRecord_le raw
            have hbound : maximumRecordSize ≤ maximumPutRecordBatchSize := by decide
            omega
          · rw [AddRecord_trigger_fail st f raw n c h1 ht hok,
              (send_not_ok_preserves st n c hok).2]
            exact hsize
      · rw [AddRecord_noTrigger st f raw n c h1 ht, appendToBatch_dataLength]
        have hgt : ¬(st.dataLength + (processRecord raw).length >
            maximumPutRecordBatchSize) := fun hh => ht (Or.inr hh)
        omega

/-- One `Flush` preserves the 4 MiB bound on the tracked size under the
contract. -/
theorem size_step_flush (st : OutputPlugin) (n : Nat) (c : ClientResult)
    (hinv : sizeInv st) (hsize : st.dataLength ≤ maximumPutRecordBatchSize)
    (hcons : (sendIssues st (Event.flush n c)).all
      (fun b => consistentResponse b c) = true) :
    (Flush st n c).1.dataLength ≤ maximumPutRecordBatchSize := by
  have hc : st.records ≠ [] → consistentResponse st.records c = true := by
    intro hne
    have hsi : sendIssues st (Event.flush n c) = [st.records] := by
      simp [sendIssues, hne]
    rw [hsi] at hcons; simpa using hcons
  exact send_size st n c hinv hsize hc

/-- Trace induction for the record-count bound. -/
theorem count_trace :
    ∀ (events : List Event) (st : OutputPlugin),
      st.records.length ≤ maximumRecordsPerPut →
      contractTrace st events = true →
      (∀ b ∈ sendsOf st events, b.length ≤ maximumRecordsPerPut) ∧
      (runEvents st events).records.length ≤ maximumRecordsPerPut := by
  intro events
  induction events with
  | nil => intro st h _; exact ⟨by simp [sendsOf], h⟩
  | cons e es ih =>
    intro st h500 hct
    obtain ⟨hc1, hc2⟩ := (contractTrace_cons st e es).mp hct
    have hstep := count_step st e h500 hc1
    have hIH := ih (stepEvent st e) hstep hc2
    refine ⟨?_, hIH.2⟩
    intro b hb
    simp only [sendsOf] at hb
    rcases List.mem_append.mp hb with hmem | hmem
    · rw [sendIssues_mem st e b hmem]; exact h500
    · exact hIH.1 b hmem

/-- Trace induction for the aggregate-size bound. -/
theorem size_trace :
    ∀ (events : List Event) (st : OutputPlugin),
      sizeInv st →
      st.dataLength ≤ maximumPutRecordBatchSize →
      contractTrace st events = true →
      implicitSafe st events = true →
      (∀ b ∈ sendsOf st events, batchSize b ≤ maximumPutRecordBatchSize) ∧
      (runEvents st events).dataLength ≤ maximumPutRecordBatchSize := by
  intro events
  induction events with
  | nil => intro st _ h _ _; exact ⟨by simp [sendsOf], h⟩
  | cons e es ih =>
    intro st hinv hsize hct hsafe
    obtain ⟨hc1, hc2⟩ := (contractTrace_cons st e es).mp hct
    have hstep : (stepEvent st e).dataLength ≤ maximumPutRecordBatchSize := by
      cases e with
      | add f enc n c =>
        have hs1 := ((implicitSafe_cons_add st f enc n c es).mp hsafe).1
        exact size_step_add st f enc n c hinv hsize hc1 hs1
      | flush n c => exact size_step_flush st n c hinv hsize hc1
    have hsafe2 : implicitSafe (stepEvent st e) es = true := by
      cases e with
      | add f enc n c => exact ((implicitSafe_cons_add st f enc n c es).mp hsafe).2
      | flush n c => exact (implicitSafe_cons_flush st n c es).mp hsafe
    have hIH := ih (stepEvent st e) (sizeInv_stepEvent st e hinv) hstep hc2 hsafe2
    refine ⟨?_, hIH.2⟩
    intro b hb
    simp only [sendsOf] at hb
    rcases List.mem_append.mp hb with hmem | hmem
    · rw [sendIssues_mem st e b hmem, ← hinv]; exact hsize
    · exact hIH.1 b hmem

/-- C1 (amended): over every sequence of `AddRecord` and `Flush` calls
from a fresh plugin whose delivery client respects its contract, every
batch handed to the client holds at most 500 records; and, provided no
implicit flush triggered inside `AddRecord` receives a subset-rebuilding
partial-failure response, every such batch also holds at most 4,194,304
aggregate bytes. -/
theorem batch_bounds_at_send_amended (timeKey : String) (agg : Bool)
    (events : List Event)
    (hcontract : contractTrace (initialPlugin timeKey agg) events = true) :
    (∀ b ∈ sendsOf (initialPlugin timeKey agg) events,
      b.length ≤ maximumRecordsPerPut) ∧
    (implicitSafe (initialPlugin timeKey agg) events = true →
      ∀ b ∈ sendsOf (initialPlugin timeKey agg) events,
        batchSize b ≤ maximumPutRecordBatchSize) := by
  constructor
  · exact (count_trace events (initialPlugin timeKey agg)
      (Nat.zero_le _) hcontract).1
  · intro hsafe
    exact (size_trace events (initialPlugin timeKey agg) rfl
      (Nat.zero_le _) hcontract hsafe).1

/-- C1 amended witness: a two-event trace (one small add, one flush with
a fully successful contract-respecting response) satisfies the
hypotheses, and both bounds hold for its single issued batch. -/
theorem batch_bounds_at_send_amended_witness :
    contractTrace (initialPlugin "" false)
        [Event.add true (some [0]) 0 (ClientResult.transportError none),
          Event.flush 0 (ClientResult.output ⟨0, [⟨none, none⟩]⟩)] = true ∧
    ((∀ b ∈ sendsOf (initialPlugin "" false)
        [Event.add true (some [0]) 0 (ClientResult.transportError none),
          Event.flush 0 (ClientResult.output ⟨0, [⟨none, none⟩]⟩)],
        b.length ≤ maximumRecordsPerPut) ∧
      (implicitSafe (initialPlugin "" false)
          [Event.add true (some [0]) 0 (ClientResult.transportError none),
            Event.flush 0 (ClientResult.output ⟨0, [⟨none, none⟩]⟩)] = true →
        ∀ b ∈ sendsOf (initialPlugin "" false)
          [Event.add true (some [0]) 0 (ClientResult.transportError none),
            Event.flush 0 (ClientResult.output ⟨0, [⟨none, none⟩]⟩)],
          batchSize b ≤ maximumPutRecordBatchSize)) :=
  ⟨by decide, batch_bounds_at_send_amended "" false _ (by decide)⟩

/-- Generic evaluation of one non-triggering, non-aggregating add. -/
theorem cex_add_step (st : OutputPlugin) (raw data : List Nat) (len : Nat)
    (hpr : processRecord raw = data) (hdl : data.length = len)
    (hagg : st.simpleAggregation = false)
    (hlen : st.records.length ≠ maximumRecordsPerPut)
    (hsz : st.dataLength + len ≤ maximumPutRecordBatchSize)
    (n : Nat) (c : ClientResult) :
    stepEvent st (Event.add true (some raw) n c) =
      { st with records := st.records ++ [⟨data⟩],
                dataLength := st.dataLength + len } ∧
    sendIssues st (Event.add true (some raw) n c) = [] := by
  have ht : ¬ sendTrigger st (processRecord raw).length := by
    rw [hpr, hdl]
    rintro (h | h)
    · exact hlen h
    · omega
  constructor
  · show (AddRecord st true (some raw) n c).1 = _
    rw [AddRecord_noTrigger st true raw n c (by simp) ht]
    show appendToBatch st (processRecord raw) = _
    rw [hpr]
    unfold appendToBatch
    rw [if_neg (by simp [hagg])]
    rw [hdl]
  · simp [sendIssues, ht]

theorem bigRaw_length : bigRaw.length = 1024000 := by
  show (List.replicate 1024000 (0 : Nat)).length = 1024000
  rw [List.length_replicate]

theorem processRecord_big : processRecord bigRaw = bigRaw := by
  have h : ¬(bigRaw.length > maximumRecordSize) := by
    rw [bigRaw_length]; decide
  unfold processRecord
  rw [if_neg h]

theorem processRecord_small : processRecord smallRaw = smallRaw := by decide

theorem stepEvent_add (st : OutputPlugin) (f : Bool) (enc : Option (List Nat))
    (n : Nat) (c : ClientResult) :
    stepEvent st (Event.add f enc n c) = (AddRecord st f enc n c).1 := rfl

theorem stepEvent_flush (st : OutputPlugin) (n : Nat) (c : ClientResult) :
    stepEvent st (Event.flush n c) = (Flush st n c).1 := rfl

/-- New-entry case of the append step, as a whole-state equation with the
new size carried separately. -/
theorem appendToBatch_new_eq (st : OutputPlugin) (data : List Nat) (len : Nat)
    (hdl : data.length = len)
    (hc : ¬(st.simpleAggregation = true ∧ st.records ≠ [] ∧
      (st.records.getLastD ⟨[]⟩).Data.length + data.length ≤ maximumRecordSize)) :
    appendToBatch st data =
      { st with records := st.records ++ [⟨data⟩],
                dataLength := st.dataLength + len } := by
  unfold appendToBatch
  rw [if_neg hc, hdl]

/-- The triggering add issues its batch to the client. -/
theorem sendIssues_add_pos (st : OutputPlugin) (f : Bool) (raw : List Nat) (n : Nat)
    (c : ClientResult) (h1 : ¬(st.timeKey ≠ "" ∧ f = false))
    (ht : sendTrigger st (processRecord raw).length) (hne : st.records ≠ []) :
    sendIssues st (Event.add f (some raw) n c) = [st.records] := by
  simp only [sendIssues, if_neg h1]
  rw [if_pos ⟨ht, hne⟩]

/-- Evaluation of the triggering sixth add: the implicit flush receives
the partial-failure response, the batch is rebuilt as the four big
records, and the new big record is appended on top. -/
theorem cex_step5 :
    stepEvent cexSt5 (Event.add true (some bigRaw) 0 (ClientResult.output cexResp)) =
      cexSt6 ∧
    sendIssues cexSt5 (Event.add true (some bigRaw) 0 (ClientResult.output cexResp)) =
      [cexSt5.records] := by
  have ht : sendTrigger cexSt5 (processRecord bigRaw).length := by
    rw [processRecord_big, bigRaw_length]
    right
    decide
  have hne : cexSt5.records ≠ [] := by simp [cexSt5]
  have hcf : collectFailed cexSt5.records cexResp.RequestResponses 0 [] =
      some [⟨bigRaw⟩, ⟨bigRaw⟩, ⟨bigRaw⟩, ⟨bigRaw⟩] := by
    simp [collectFailed, cexResp, cexOkEntry, cexErrEntry, cexSt5, stringValue,
      ErrCodeServiceUnavailableException]
  have hbs : batchSize [(⟨bigRaw⟩ : Record), ⟨bigRaw⟩, ⟨bigRaw⟩, ⟨bigRaw⟩] = 4096000 := by
    simp [batchSize, bigRaw_length]
  have hsend : sendCurrentBatch cexSt5 0 (ClientResult.output cexResp) =
      (⟨"", false, [⟨bigRaw⟩, ⟨bigRaw⟩, ⟨bigRaw⟩, ⟨bigRaw⟩], 4096000, ⟨none⟩⟩,
        RetCode.FLB_OK, none) := by
    have h1 : sendCurrentBatch cexSt5 0 (ClientResult.output cexResp) =
        processAPIResponse cexSt5 0 cexResp := by
      unfold sendCurrentBatch
      rw [if_neg hne]
      rfl
    rw [h1]
    unfold processAPIResponse
    rw [if_pos (by decide : cexResp.FailedPutCount > 0),
      if_neg (by decide : ¬(cexResp.FailedPutCount = cexSt5.records.length)), hcf]
    simp only [hbs]
    rfl
  have hok : (sendCurrentBatch cexSt5 0 (ClientResult.output cexResp)).2.1 =
      RetCode.FLB_OK := by rw [hsend]
  constructor
  · have hA1 : (AddRecord cexSt5 true (some bigRaw) 0 (ClientResult.output cexResp)).1 =
        appendToBatch (sendCurrentBatch cexSt5 0 (ClientResult.output cexResp)).1
          (processRecord bigRaw) :=
      congrArg Prod.fst (AddRecord_trigger_ok cexSt5 true bigRaw 0
        (ClientResult.output cexResp) (by simp [cexSt5]) ht hok)
    have hB : appendToBatch (sendCurrentBatch cexSt5 0 (ClientResult.output cexResp)).1
        (processRecord bigRaw) =
        appendToBatch
          (⟨"", false, [⟨bigRaw⟩, ⟨bigRaw⟩, ⟨bigRaw⟩, ⟨bigRaw⟩], 4096000,
            ⟨none⟩⟩ : OutputPlugin) bigRaw := by
      rw [hsend, processRecord_big]
    have hC : appendToBatch
        (⟨"", false, [⟨bigRaw⟩, ⟨bigRaw⟩, ⟨bigRaw⟩, ⟨bigRaw⟩], 4096000,
          ⟨none⟩⟩ : OutputPlugin) bigRaw = cexSt6 :=
      appendToBatch_new_eq
        (⟨"", false, [⟨bigRaw⟩, ⟨bigRaw⟩, ⟨bigRaw⟩, ⟨bigRaw⟩], 4096000,
          ⟨none⟩⟩ : OutputPlugin) bigRaw 1024000 bigRaw_length
        (fun h => Bool.noConfusion h.1)
    exact (stepEvent_add cexSt5 true (some bigRaw) 0
      (ClientResult.output cexResp)).trans ((hA1.trans hB).trans hC)
  · exact sendIssues_add_pos cexSt5 true bigRaw 0 (ClientResult.output cexResp)
      (by simp [cexSt5]) ht hne

/-- C1 counterexample: a contract-respecting trace after which a send is
issued whose batch carries 5,120,000 aggregate bytes, exceeding the
4,194,304-byte bound the claim asserts for every issued send. -/
theorem batch_bounds_counterexample :
    contractTrace (initialPlugin "" false) cexEvents = true ∧
    (sendsOf (initialPlugin "" false) cexEvents).length = 2 ∧
    maximumPutRecordBatchSize <
      batchSize ((sendsOf (initialPlugin "" false) cexEvents).getD 1 []) := by
  have h0 : stepEvent (initialPlugin "" false)
        (Event.add true (some smallRaw) 0 (ClientResult.transportError none)) = cexSt1 ∧
      sendIssues (initialPlugin "" false)
        (Event.add true (some smallRaw) 0 (ClientResult.transportError none)) = [] :=
    cex_add_step _ smallRaw smallRaw 1 processRecord_small rfl rfl
      (by decide) (by decide) 0 _
  have h1 : stepEvent cexSt1
        (Event.add true (some bigRaw) 0 (ClientResult.transportError none)) = cexSt2 ∧
      sendIssues cexSt1
        (Event.add true (some bigRaw) 0 (ClientResult.transportError none)) = [] :=
    cex_add_step _ bigRaw bigRaw 1024000 processRecord_big bigRaw_length rfl
      (by decide) (by decide) 0 _
  have h2 : stepEvent cexSt2
        (Event.add true (some bigRaw) 0 (ClientResult.transportError none)) = cexSt3 ∧
      sendIssues cexSt2
        (Event.add true (some bigRaw) 0 (ClientResult.transportError none)) = [] :=
    cex_add_step _ bigRaw bigRaw 1024000 processRecord_big bigRaw_length rfl
      (by decide) (by decide) 0 _
  have h3 : stepEvent cexSt3
        (Event.add true (some bigRaw) 0 (ClientResult.transportError none)) = cexSt4 ∧
      sendIssues cexSt3
        (Event.add true (some bigRaw) 0 (ClientResult.transportError none)) = [] :=
    cex_add_step _ bigRaw bigRaw 1024000 processRecord_big bigRaw_length rfl
      (by decide) (by decide) 0 _
  have h4 : stepEvent cexSt4
        (Event.add true (some bigRaw) 0 (ClientResult.transportError none)) = cexSt5 ∧
      sendIssues cexSt4
        (Event.add true (some bigRaw) 0 (ClientResult.transportError none)) = [] :=
    cex_add_step _ bigRaw bigRaw 1024000 processRecord_big bigRaw_length rfl
      (by decide) (by decide) 0 _
  have h5 := cex_step5
  have h6i : sendIssues cexSt6 (Event.flush 0 (ClientResult.transportError none)) =
      [cexSt6.records] := by
    simp [sendIssues, cexSt6]
  have hsends : sendsOf (initialPlugin "" false) cexEvents =
      [cexSt5.records, cexSt6.records] := by
    unfold cexEvents
    rw [sendsOf, h0.1, h0.2, sendsOf, h1.1, h1.2, sendsOf, h2.1, h2.2,
      sendsOf, h3.1, h3.2, sendsOf, h4.1, h4.2, sendsOf, h5.1, h5.2,
      sendsOf, h6i, sendsOf]
    simp
  have hcontract : contractTrace (initialPlugin "" false) cexEvents = true := by
    unfold cexEvents
    rw [contractTrace, h0.1, h0.2, contractTrace, h1.1, h1.2, contractTrace,
      h2.1, h2.2, contractTrace, h3.1, h3.2, contractTrace, h4.1, h4.2,
      contractTrace, h5.1, h5.2, contractTrace, h6i]
    simp [clientOf, contractTrace, consistentResponse]
    exact ⟨by decide, by decide⟩
  refine ⟨hcontract, ?_, ?_⟩
  · rw [hsends]; rfl
  · rw [hsends]
    show maximumPutRecordBatchSize < batchSize cexSt6.records
    have hbs : batchSize cexSt6.records = 5120000 := by
      simp [cexSt6, batchSize, bigRaw_length]
    rw [hbs]
    decide

end Firehose
